import Mathlib

/-!
Verification of the `silhouette` service container (`src/lib.rs`).

The container owns three tables keyed by `TypeId`:
  * `bindings`  — transient factories (`HashMap<TypeId, Box<dyn Fn(&Self) -> Box<dyn Any>>>`),
  * `instances` — materialized singleton/scoped values, stored behind a thunk that
    clones the cached concrete value on each call (`HashMap<TypeId, Box<dyn Fn() -> Box<dyn Any>>>`),
  * `scoped_instances` — a `Vec<TypeId>` of keys registered through `scoped`.

Embedding choices:
  * `TypeId` is `Nat`; concrete produced values are `String` payloads.  A boxed
    `dyn Any` is an `ErasedValue`: a payload together with the `TypeId` tag used
    by `downcast`.
  * A Rust factory is a closure `Fn(&Container) -> T`.  Storing Lean functions
    `Container → Value` inside `Container` is a negative occurrence, so factory
    bodies are deep-embedded (`FactoryBody`): a body either returns a constant
    or resolves another key from the container and continues with the result —
    exactly the power the Rust closure has over `&Container`.  Each `Factory`
    carries a label `fid` so that invocations can be counted, and `retTy` is
    `TypeId::of::<T>()`, the key under which `bind::<T>`/`singleton::<T>` store
    it and the tag of the values it produces.
  * Nested resolution inside a factory body can recurse (the crate documents a
    cyclic factory graph as infinite recursion, out of scope), so invocation
    takes fuel; `none` models the non-terminating run.  Bodies that do not
    resolve (`FactoryBody.const`) succeed with any fuel.
  * Mutating operations return the new container paired with the trace of
    factory labels invoked during the call; `singleton`/`scoped` (which invoke
    the factory at registration time) are fuel-bounded and return `Option`.
    `resolve` takes `&self`, so it is a pure function of the container.
-/

namespace Silhouette

/-- `std::any::TypeId`, a process-stable identifier of a type. -/
abbrev TypeId := Nat

/-- The concrete payload of a produced value. -/
abbrev Value := String

/-- `silhouette::Error` from `src/lib.rs`. -/
inductive Error where
  | NotFound
  | CastFailed
deriving DecidableEq, Repr

/-- A `Box<dyn Any>`: a payload tagged with the `TypeId` of the type it was
boxed at, consulted by `downcast`. -/
structure ErasedValue where
  tyId : TypeId
  value : Value
deriving DecidableEq, Repr

/-- `Box::<dyn Any>::downcast::<T>` followed by the source's
`.map(|i| *i).map_err(|_| Error::CastFailed)`. -/
def downcast (want : TypeId) (v : ErasedValue) : Except Error Value :=
  if v.tyId = want then Except.ok v.value else Except.error Error.CastFailed

/-- `try_default_if_enabled` under `#[cfg(not(feature = "nightly"))]` — the
crate's default build: always `None`. -/
def try_default_if_enabled (_t : TypeId) : Option Value := none

/-- Deep embedding of the body of a factory closure `Fn(&Container) -> T`:
it can resolve other types from the container it receives (`resolveThen`,
continuing with the `Result<U, Error>` the nested resolve returned) and
finally produces a concrete value (`const`). -/
inductive FactoryBody where
  | const (v : Value)
  | resolveThen (key : TypeId) (k : Except Error Value → FactoryBody)

/-- A registered factory: its body, the `TypeId` of the `T` it returns (which
is also the key `bind::<T>`/`singleton::<T>` store it under), and a label
`fid` identifying the closure so invocations can be counted. -/
structure Factory where
  fid : Nat
  retTy : TypeId
  body : FactoryBody

/-- Association-list model of `HashMap<TypeId, β>`: at most one live entry per
key, observed through `mapGet`. -/
def mapGet {β : Type} (k : TypeId) : List (TypeId × β) → Option β
  | [] => none
  | (k', v) :: rest => if k' = k then some v else mapGet k rest

/-- `HashMap::remove` (drops the entry for `k`, keeps the rest). -/
def mapRemove {β : Type} (k : TypeId) : List (TypeId × β) → List (TypeId × β)
  | [] => []
  | (k', v) :: rest => if k' = k then mapRemove k rest else (k', v) :: mapRemove k rest

/-- `HashMap::insert` (replaces any previous entry for `k`). -/
def mapInsert {β : Type} (k : TypeId) (v : β) (m : List (TypeId × β)) : List (TypeId × β) :=
  (k, v) :: mapRemove k m

/-- `HashMap::contains_key`. -/
def mapContains {β : Type} (k : TypeId) (m : List (TypeId × β)) : Bool :=
  (mapGet k m).isSome

/-- The `Container` struct of `src/lib.rs`: transient bindings, materialized
instances, and the `Vec<TypeId>` of scoped keys. -/
structure Container where
  bindings : List (TypeId × Factory)
  instances : List (TypeId × ErasedValue)
  scoped_instances : List TypeId

/-- Runs a factory body against a container, with fuel bounding nested
resolution.  Returns the produced value and the trace of factory labels
invoked along the way; `none` is the run that exhausts its fuel (a cyclic
factory graph, which in Rust recurses forever).  The `resolveThen` case
inlines `Container::resolve` (see `invokeBody_resolveThen` below): first the
materialized instance (its thunk returns a clone of the cached tagged value),
then the binding (invoke the stored factory on the container and downcast),
then `try_default_if_enabled().ok_or(Error::NotFound)`. -/
def invokeBody : Nat → Container → FactoryBody → Option (Value × List Nat)
  | _, _, FactoryBody.const v => some (v, [])
  | 0, _, FactoryBody.resolveThen _ _ => none
  | Nat.succ fuel, c, FactoryBody.resolveThen key k =>
    let r : Option (Except Error Value × List Nat) :=
      match mapGet key c.instances with
      | some ev => some (downcast key ev, [])
      | none =>
        match mapGet key c.bindings with
        | some f =>
          (invokeBody fuel c f.body).map
            (fun p => (downcast key (ErasedValue.mk f.retTy p.1), f.fid :: p.2))
        | none =>
          match try_default_if_enabled key with
          | some v => some (Except.ok v, [])
          | none => some (Except.error Error.NotFound, [])
    r.bind (fun p =>
      (invokeBody fuel c (k p.1)).map (fun q => (q.1, p.2 ++ q.2)))

/-- `Container::resolve::<T>` (`T` is `key`): materialized instance first (the
stored thunk returns a clone of the cached value, which is then downcast),
else the transient binding (invoke `factory(self)`, downcast its boxed
result), else `try_default_if_enabled().ok_or(Error::NotFound)`.  The second
component is the trace of factory labels invoked by this call. -/
def Container.resolve (fuel : Nat) (c : Container) (key : TypeId) :
    Option (Except Error Value × List Nat) :=
  match mapGet key c.instances with
  | some ev => some (downcast key ev, [])
  | none =>
    match mapGet key c.bindings with
    | some f =>
      (invokeBody fuel c f.body).map
        (fun p => (downcast key (ErasedValue.mk f.retTy p.1), f.fid :: p.2))
    | none =>
      match try_default_if_enabled key with
      | some v => some (Except.ok v, [])
      | none => some (Except.error Error.NotFound, [])

/-- `Container::new`. -/
def Container.new : Container := Container.mk [] [] []

/-- `Container::bind::<T>`: remove any materialized instance for `T`, then
insert the factory into the bindings table.  No factory invocation happens,
so the trace is empty. -/
def Container.bind (c : Container) (f : Factory) : Container × List Nat :=
  (Container.mk (mapInsert f.retTy f c.bindings) (mapRemove f.retTy c.instances)
    c.scoped_instances, [])

/-- `Container::bind_if::<T>`: `bind` only when the bindings table has no
entry for `T` (the materialized table is not consulted). -/
def Container.bind_if (c : Container) (f : Factory) : Container × List Nat :=
  if mapContains f.retTy c.bindings then (c, []) else Container.bind c f

/-- `Container::singleton::<T>`: invoke `factory(self)` now, then store a
thunk that clones the produced value (tagged with `T`) in the instances
table.  The bindings table is untouched.  `none` is the run whose factory
invocation does not terminate. -/
def Container.singleton (fuel : Nat) (c : Container) (f : Factory) :
    Option (Container × List Nat) :=
  (invokeBody fuel c f.body).map
    (fun p =>
      (Container.mk c.bindings
        (mapInsert f.retTy (ErasedValue.mk f.retTy p.1) c.instances)
        c.scoped_instances,
       f.fid :: p.2))

/-- `Container::singleton_if::<T>`: `singleton` only when the instances table
has no entry for `T`. -/
def Container.singleton_if (fuel : Nat) (c : Container) (f : Factory) :
    Option (Container × List Nat) :=
  if mapContains f.retTy c.instances then some (c, [])
  else Container.singleton fuel c f

/-- `Container::scoped::<T>`: push `T`'s key onto `scoped_instances`, then
`singleton` (the factory is invoked on the already-pushed state). -/
def Container.scoped (fuel : Nat) (c : Container) (f : Factory) :
    Option (Container × List Nat) :=
  Container.singleton fuel
    (Container.mk c.bindings c.instances (c.scoped_instances ++ [f.retTy])) f

/-- `Container::scoped_if::<T>`: `scoped` only when `T`'s key is not already
in `scoped_instances`. -/
def Container.scoped_if (fuel : Nat) (c : Container) (f : Factory) :
    Option (Container × List Nat) :=
  if c.scoped_instances.contains f.retTy then some (c, [])
  else Container.scoped fuel c f

/-- `Container::forget_scoped_instances`: remove the materialized entry of
every key listed in `scoped_instances`; bindings and the scoped list itself
are untouched. -/
def Container.forget_scoped_instances (c : Container) : Container :=
  Container.mk c.bindings
    (c.scoped_instances.foldl (fun m k => mapRemove k m) c.instances)
    c.scoped_instances

/-- `Container::flush`: clear all three tables. -/
def Container.flush (_c : Container) : Container :=
  Container.mk [] [] []

/-- State-passing reading of `resolve`: the method takes `&self` and its body
only reads the tables (`HashMap::get`) and calls `Fn` closures, so the
post-state of the call is the input state. -/
def Container.resolveStep (fuel : Nat) (c : Container) (key : TypeId) :
    Option ((Except Error Value × List Nat) × Container) :=
  (Container.resolve fuel c key).map (fun r => (r, c))

/-- `n` successive `resolve` calls for the same key.  `resolve` takes `&self`,
so every call runs against the same container. -/
def Container.resolveN (fuel : Nat) (c : Container) (key : TypeId) :
    Nat → List (Option (Except Error Value × List Nat))
  | 0 => []
  | Nat.succ n => Container.resolve fuel c key :: Container.resolveN fuel c key n

/-- All factory labels invoked across a list of call results. -/
def tracesOf (rs : List (Option (Except Error Value × List Nat))) : List Nat :=
  (rs.filterMap id).map (fun p => p.2) |>.flatten

/-! Helper lemmas about the map model and the semantics. -/

theorem mapGet_remove {β : Type} (k k' : TypeId) (m : List (TypeId × β)) :
    mapGet k (mapRemove k' m) = if k' = k then none else mapGet k m := by
  induction m with
  | nil => by_cases h : k' = k <;> simp [mapGet, mapRemove, h]
  | cons hd tl ih =>
    obtain ⟨a, b⟩ := hd
    by_cases hak' : a = k'
    · subst hak'
      by_cases hk : a = k
      · subst hk
        simp [mapGet, mapRemove, ih]
      · simp [mapGet, mapRemove, hk, ih]
    · by_cases hak : a = k
      · subst hak
        have hka' : ¬ (k' = a) := fun h => hak' h.symm
        simp [mapGet, mapRemove, hak', hka']
      · simp [mapGet, mapRemove, hak', hak, ih]

theorem mapGet_remove_self {β : Type} (k : TypeId) (m : List (TypeId × β)) :
    mapGet k (mapRemove k m) = none := by
  simp [mapGet_remove]

theorem mapGet_insert {β : Type} (k k' : TypeId) (v : β) (m : List (TypeId × β)) :
    mapGet k (mapInsert k' v m) = if k' = k then some v else mapGet k m := by
  by_cases h : k' = k <;> simp [mapInsert, mapGet, h, mapGet_remove]

theorem mapGet_insert_self {β : Type} (k : TypeId) (v : β) (m : List (TypeId × β)) :
    mapGet k (mapInsert k v m) = some v := by
  simp [mapGet_insert]

theorem mapGet_foldl_remove {β : Type} (ks : List TypeId) (m : List (TypeId × β)) (k : TypeId) :
    mapGet k (ks.foldl (fun acc j => mapRemove j acc) m) =
      if k ∈ ks then none else mapGet k m := by
  induction ks generalizing m with
  | nil => simp
  | cons hd tl ih =>
    simp only [List.foldl_cons, ih, mapGet_remove, List.mem_cons]
    by_cases hmem : k ∈ tl
    · simp [hmem]
    · by_cases hhd : hd = k
      · simp [hhd, hmem]
      · have h2 : ¬ (k = hd) := fun h => hhd h.symm
        simp [hhd, h2, hmem]

/-- The nested-resolution step inside `invokeBody` is literally
`Container.resolve` at the remaining fuel. -/
theorem invokeBody_resolveThen (fuel : Nat) (c : Container) (key : TypeId)
    (k : Except Error Value → FactoryBody) :
    invokeBody (fuel + 1) c (FactoryBody.resolveThen key k) =
      (Container.resolve fuel c key).bind (fun p =>
        (invokeBody fuel c (k p.1)).map (fun q => (q.1, p.2 ++ q.2))) := rfl

theorem invokeBody_const (fuel : Nat) (c : Container) (v : Value) :
    invokeBody fuel c (FactoryBody.const v) = some (v, []) := by
  cases fuel <;> rfl

theorem downcast_self (t : TypeId) (v : Value) :
    downcast t (ErasedValue.mk t v) = Except.ok v := by
  simp [downcast]

theorem resolve_instance (fuel : Nat) (c : Container) (key : TypeId) (ev : ErasedValue)
    (h : mapGet key c.instances = some ev) :
    Container.resolve fuel c key = some (downcast key ev, []) := by
  simp [Container.resolve, h]

theorem resolve_binding (fuel : Nat) (c : Container) (key : TypeId) (f : Factory)
    (hi : mapGet key c.instances = none) (hb : mapGet key c.bindings = some f) :
    Container.resolve fuel c key =
      (invokeBody fuel c f.body).map
        (fun p => (downcast key (ErasedValue.mk f.retTy p.1), f.fid :: p.2)) := by
  simp [Container.resolve, hi, hb]

theorem resolve_missing (fuel : Nat) (c : Container) (key : TypeId)
    (hi : mapGet key c.instances = none) (hb : mapGet key c.bindings = none) :
    Container.resolve fuel c key = some (Except.error Error.NotFound, []) := by
  simp [Container.resolve, hi, hb, try_default_if_enabled]

theorem resolve_const_binding (fuel : Nat) (c : Container) (key i : Nat) (v : Value)
    (hi : mapGet key c.instances = none)
    (hb : mapGet key c.bindings = some (Factory.mk i key (FactoryBody.const v))) :
    Container.resolve fuel c key = some (Except.ok v, [i]) := by
  rw [resolve_binding fuel c key _ hi hb]
  simp [invokeBody_const, downcast_self]

theorem resolveN_const (fuel : Nat) (c : Container) (key : TypeId)
    (r : Except Error Value × List Nat) (h : Container.resolve fuel c key = some r) :
    ∀ n, Container.resolveN fuel c key n = List.replicate n (some r) := by
  intro n
  induction n with
  | zero => rfl
  | succ n ih => simp [Container.resolveN, h, ih, List.replicate_succ]

theorem tracesOf_replicate (n : Nat) (r : Except Error Value) (tr : List Nat) :
    tracesOf (List.replicate n (some (r, tr))) = (List.replicate n tr).flatten := by
  induction n with
  | zero => rfl
  | succ n ih =>
    have h : tracesOf (List.replicate (n + 1) (some (r, tr))) =
        tr ++ tracesOf (List.replicate n (some (r, tr))) := rfl
    rw [h, ih, List.replicate_succ, List.flatten_cons]

theorem flatten_replicate_nil (n : Nat) : (List.replicate n ([] : List Nat)).flatten = [] := by
  induction n with
  | zero => rfl
  | succ n ih => simp [List.replicate_succ, ih]

theorem flatten_replicate_one (n i : Nat) :
    (List.replicate n [i]).flatten = List.replicate n i := by
  induction n with
  | zero => rfl
  | succ n ih => simp [List.replicate_succ, ih]

theorem count_replicate_self_nat (i n : Nat) : (List.replicate n i).count i = n := by
  induction n with
  | zero => rfl
  | succ n ih => simp [List.replicate_succ, List.count_cons, ih]

/-! Claim theorems. -/

/-- Claim C1: `resolve` follows the fixed precedence MaterializedEntry >
Factory > NotFound (the default-fallback capability is disabled in this
build): a present materialized entry's thunk value is returned; otherwise a
stored factory is invoked and its downcast result returned; otherwise the
call fails with `Error.NotFound` — in particular on a freshly constructed
container, where nothing is registered. -/
theorem C1_resolve_precedence (fuel : Nat) (c : Container) (key : TypeId) :
    (∀ v, mapGet key c.instances = some (ErasedValue.mk key v) →
      Container.resolve fuel c key = some (Except.ok v, [])) ∧
    (∀ f w tr, mapGet key c.instances = none → mapGet key c.bindings = some f →
      invokeBody fuel c f.body = some (w, tr) →
      Container.resolve fuel c key =
        some (downcast key (ErasedValue.mk f.retTy w), f.fid :: tr)) ∧
    (mapGet key c.instances = none → mapGet key c.bindings = none →
      Container.resolve fuel c key = some (Except.error Error.NotFound, [])) ∧
    Container.resolve fuel Container.new key = some (Except.error Error.NotFound, []) := by
  refine ⟨?_, ?_, ?_, ?_⟩
  · intro v h
    rw [resolve_instance fuel c key _ h, downcast_self]
  · intro f w tr hi hb hw
    rw [resolve_binding fuel c key f hi hb, hw]
    rfl
  · exact resolve_missing fuel c key
  · exact resolve_missing fuel Container.new key rfl rfl

/-- Witness for C1 at concrete containers: a materialized entry wins, a lone
factory is invoked, and a fresh container yields `NotFound`. -/
theorem C1_witness :
    Container.resolve 1 (Container.mk [] [(0, ErasedValue.mk 0 "A")] []) 0
      = some (Except.ok "A", []) ∧
    Container.resolve 1 (Container.mk [(1, Factory.mk 7 1 (FactoryBody.const "B"))] [] []) 1
      = some (Except.ok "B", [7]) ∧
    Container.resolve 1 Container.new 2 = some (Except.error Error.NotFound, []) := by
  refine ⟨?_, ?_, ?_⟩
  · exact (C1_resolve_precedence 1 (Container.mk [] [(0, ErasedValue.mk 0 "A")] []) 0).1 "A" rfl
  · have h := (C1_resolve_precedence 1
      (Container.mk [(1, Factory.mk 7 1 (FactoryBody.const "B"))] [] []) 1).2.1
      (Factory.mk 7 1 (FactoryBody.const "B")) "B" [] rfl rfl (invokeBody_const 1 _ "B")
    rw [h, downcast_self]
  · exact (C1_resolve_precedence 1 Container.new 2).2.2.1 rfl rfl

/-- Claim C2: `singleton F` invokes `F` exactly once, synchronously during the
call (for a non-resolving factory the call's invocation trace is exactly
`[F.fid]`), and stores the produced value; while that entry is present every
`resolve` returns the stored value with an empty invocation trace, so `F` is
never invoked again no matter how many times `resolve` is called. -/
theorem C2_singleton_once (fuel fuel' : Nat) (c : Container) (i T : Nat) (v : Value) :
    ∃ c1, Container.singleton fuel c (Factory.mk i T (FactoryBody.const v)) = some (c1, [i]) ∧
      mapGet T c1.instances = some (ErasedValue.mk T v) ∧
      (∀ d : Container, mapGet T d.instances = some (ErasedValue.mk T v) →
        Container.resolve fuel' d T = some (Except.ok v, [])) ∧
      (∀ n, Container.resolveN fuel' c1 T n = List.replicate n (some (Except.ok v, []))) ∧
      (∀ n, (tracesOf (Container.resolveN fuel' c1 T n)).count i = 0) := by
  have hres : Container.resolve fuel'
      (Container.mk c.bindings (mapInsert T (ErasedValue.mk T v) c.instances)
        c.scoped_instances) T = some (Except.ok v, []) := by
    rw [resolve_instance fuel' _ T _ (mapGet_insert_self T _ _), downcast_self]
  refine ⟨Container.mk c.bindings (mapInsert T (ErasedValue.mk T v) c.instances)
    c.scoped_instances, ?_, mapGet_insert_self T _ _, ?_, ?_, ?_⟩
  · simp [Container.singleton, invokeBody_const]
  · intro d hd
    rw [resolve_instance fuel' d T _ hd, downcast_self]
  · exact fun n => resolveN_const fuel' _ T _ hres n
  · intro n
    rw [resolveN_const fuel' _ T _ hres n, tracesOf_replicate, flatten_replicate_nil]
    rfl

/-- Witness for C2: registering a singleton on a fresh container stores the
value with a one-invocation trace, and a container holding that entry
resolves it with an empty trace. -/
theorem C2_witness :
    (Container.singleton 1 Container.new (Factory.mk 5 0 (FactoryBody.const "x"))).map
        (fun p => (mapGet 0 p.1.instances, p.2))
      = some (some (ErasedValue.mk 0 "x"), [5]) ∧
    Container.resolve 1 (Container.mk [] [(0, ErasedValue.mk 0 "x")] []) 0
      = some (Except.ok "x", []) := by
  obtain ⟨c1, h1, h2, h3, h4, h5⟩ := C2_singleton_once 1 1 Container.new 5 0 "x"
  constructor
  · rw [h1]
    simp [h2]
  · exact h3 (Container.mk [] [(0, ErasedValue.mk 0 "x")] []) rfl

/-- Claim C3: `bind F` stores `F` without invoking it — the registration
trace is empty and no materialized entry exists for `T` afterwards — and each
subsequent `resolve` invokes `F` anew: `n` resolves return `n` identical
results whose combined invocation trace contains `F.fid` exactly `n` times,
so nothing is cached. -/
theorem C3_bind_transient (fuel : Nat) (c : Container) (i T : Nat) (v : Value) :
    ∃ c1, Container.bind c (Factory.mk i T (FactoryBody.const v)) = (c1, []) ∧
      mapGet T c1.bindings = some (Factory.mk i T (FactoryBody.const v)) ∧
      mapGet T c1.instances = none ∧
      (∀ n, Container.resolveN fuel c1 T n = List.replicate n (some (Except.ok v, [i]))) ∧
      (∀ n, (tracesOf (Container.resolveN fuel c1 T n)).count i = n) := by
  have hres : Container.resolve fuel
      (Container.mk (mapInsert T (Factory.mk i T (FactoryBody.const v)) c.bindings)
        (mapRemove T c.instances) c.scoped_instances) T = some (Except.ok v, [i]) :=
    resolve_const_binding fuel _ T i v (mapGet_remove_self T _) (mapGet_insert_self T _ _)
  refine ⟨Container.mk (mapInsert T (Factory.mk i T (FactoryBody.const v)) c.bindings)
      (mapRemove T c.instances) c.scoped_instances,
    rfl, mapGet_insert_self T _ _, mapGet_remove_self T _, ?_, ?_⟩
  · exact fun n => resolveN_const fuel _ T _ hres n
  · intro n
    rw [resolveN_const fuel _ T _ hres n, tracesOf_replicate, flatten_replicate_one,
      count_replicate_self_nat]

/-- Claim C4: `bind` after `singleton` removes the cached entry — in general
`bind` leaves no materialized entry for its key — so after singleton
producing `a` and bind of a factory producing `b`, `resolve` returns `b`
from the new transient factory, never the old cached value. -/
theorem C4_bind_clears_singleton (fuel fuel' : Nat) (c : Container) (ia ib T : Nat)
    (a b : Value) :
    (∀ (d : Container) (f : Factory),
      mapGet f.retTy ((Container.bind d f).1).instances = none) ∧
    ∃ c1, Container.singleton fuel c (Factory.mk ia T (FactoryBody.const a))
        = some (c1, [ia]) ∧
      mapGet T c1.instances = some (ErasedValue.mk T a) ∧
      mapGet T ((Container.bind c1 (Factory.mk ib T (FactoryBody.const b))).1).instances
        = none ∧
      Container.resolve fuel' ((Container.bind c1 (Factory.mk ib T (FactoryBody.const b))).1) T
        = some (Except.ok b, [ib]) := by
  refine ⟨fun d f => mapGet_remove_self f.retTy d.instances,
    Container.mk c.bindings (mapInsert T (ErasedValue.mk T a) c.instances) c.scoped_instances,
    ?_, mapGet_insert_self T _ _, mapGet_remove_self T _, ?_⟩
  · simp [Container.singleton, invokeBody_const]
  · exact resolve_const_binding fuel' _ T ib b (mapGet_remove_self T _)
      (mapGet_insert_self T _ _)

/-- Claim C5: `forget_scoped_instances` removes the materialized entry of
every key in `scoped_instances` and nothing else — bindings, the scoped list,
and entries of non-scoped keys are untouched.  Consequently a type registered
with `scoped` and no separately bound factory resolves to `NotFound`
afterwards, while one that also has a factory resolves through it. -/
theorem C5_forget_frame (fuel fuel' : Nat) (c : Container) :
    (Container.forget_scoped_instances c).bindings = c.bindings ∧
    (Container.forget_scoped_instances c).scoped_instances = c.scoped_instances ∧
    (∀ k, k ∈ c.scoped_instances →
      mapGet k (Container.forget_scoped_instances c).instances = none) ∧
    (∀ k, k ∉ c.scoped_instances →
      mapGet k (Container.forget_scoped_instances c).instances = mapGet k c.instances) ∧
    (∀ i T v c1 tr,
      Container.scoped fuel c (Factory.mk i T (FactoryBody.const v)) = some (c1, tr) →
      mapGet T c.bindings = none →
      Container.resolve fuel' (Container.forget_scoped_instances c1) T
        = some (Except.error Error.NotFound, [])) ∧
    (∀ i T v c1 tr j w,
      Container.scoped fuel c (Factory.mk i T (FactoryBody.const v)) = some (c1, tr) →
      mapGet T c.bindings = some (Factory.mk j T (FactoryBody.const w)) →
      Container.resolve fuel' (Container.forget_scoped_instances c1) T
        = some (Except.ok w, [j])) := by
  have hscoped : ∀ i T v c1 tr,
      Container.scoped fuel c (Factory.mk i T (FactoryBody.const v)) = some (c1, tr) →
      c1 = Container.mk c.bindings (mapInsert T (ErasedValue.mk T v) c.instances)
        (c.scoped_instances ++ [T]) := by
    intro i T v c1 tr h
    have hX : Container.scoped fuel c (Factory.mk i T (FactoryBody.const v))
        = some (Container.mk c.bindings (mapInsert T (ErasedValue.mk T v) c.instances)
            (c.scoped_instances ++ [T]), [i]) := by
      simp [Container.scoped, Container.singleton, invokeBody_const]
    rw [hX] at h
    injection h with h2
    exact (congrArg Prod.fst h2).symm
  have hTmem : ∀ T, T ∈ c.scoped_instances ++ [T] := fun T =>
    List.mem_append_right _ (List.mem_singleton.mpr rfl)
  refine ⟨rfl, rfl, ?_, ?_, ?_, ?_⟩
  · intro k hk
    simp [Container.forget_scoped_instances, mapGet_foldl_remove, hk]
  · intro k hk
    simp [Container.forget_scoped_instances, mapGet_foldl_remove, hk]
  · intro i T v c1 tr hsc hb
    rw [hscoped i T v c1 tr hsc]
    refine resolve_missing fuel' _ T ?_ hb
    simp [Container.forget_scoped_instances, mapGet_foldl_remove, hTmem T,
      mapGet_remove_self]
  · intro i T v c1 tr j w hsc hb
    rw [hscoped i T v c1 tr hsc]
    refine resolve_const_binding fuel' _ T j w ?_ hb
    simp [Container.forget_scoped_instances, mapGet_foldl_remove, hTmem T,
      mapGet_remove_self]

/-- Witness for C5: a scoped-only type resolves to `NotFound` after
`forget_scoped_instances`, and one with a separately bound factory resolves
through that factory. -/
theorem C5_witness :
    Container.resolve 1 (Container.forget_scoped_instances
        (Container.mk [] [(0, ErasedValue.mk 0 "s")] [0])) 0
      = some (Except.error Error.NotFound, []) ∧
    Container.resolve 1 (Container.forget_scoped_instances
        (Container.mk [(0, Factory.mk 4 0 (FactoryBody.const "g"))]
          [(0, ErasedValue.mk 0 "s")] [0])) 0
      = some (Except.ok "g", [4]) := by
  constructor
  · exact (C5_forget_frame 1 1 Container.new).2.2.2.2.1 1 0 "s"
      (Container.mk [] [(0, ErasedValue.mk 0 "s")] [0]) [1] rfl rfl
  · exact (C5_forget_frame 1 1
      (Container.mk [(0, Factory.mk 4 0 (FactoryBody.const "g"))] [] [])).2.2.2.2.2 1 0 "s"
      (Container.mk [(0, Factory.mk 4 0 (FactoryBody.const "g"))]
        [(0, ErasedValue.mk 0 "s")] [0]) [1] 4 "g" rfl rfl

/-- Claim C6: `flush` clears all three tables, leaving exactly the state of a
freshly constructed container, and resolving any key afterwards yields
`NotFound`. -/
theorem C6_flush (fuel : Nat) (c : Container) (key : TypeId) :
    Container.flush c = Container.new ∧
    Container.resolve fuel (Container.flush c) key
      = some (Except.error Error.NotFound, []) :=
  ⟨rfl, resolve_missing fuel (Container.flush c) key rfl rfl⟩

/-- Claim C7: `bind_if` is a no-op exactly when a factory entry exists for
its key — only the bindings table is consulted — so a type with only a
materialized entry counts as unbound: `bind_if` then behaves like `bind`,
removing the entry and installing the factory, and a subsequent `resolve`
invokes the new factory instead of returning the cached value. -/
theorem C7_bind_if (fuel : Nat) (c : Container) (f : Factory) :
    (mapContains f.retTy c.bindings = true → Container.bind_if c f = (c, [])) ∧
    (mapContains f.retTy c.bindings = false →
      Container.bind_if c f = Container.bind c f) ∧
    (∀ i T v ev, mapGet T c.bindings = none → mapGet T c.instances = some ev →
      mapGet T ((Container.bind_if c (Factory.mk i T (FactoryBody.const v))).1).instances
          = none ∧
      Container.resolve fuel ((Container.bind_if c (Factory.mk i T (FactoryBody.const v))).1) T
        = some (Except.ok v, [i])) := by
  refine ⟨?_, ?_, ?_⟩
  · intro h
    simp [Container.bind_if, h]
  · intro h
    simp [Container.bind_if, h]
  · intro i T v ev hb hi
    have hcontains : mapContains T c.bindings = false := by
      simp [mapContains, hb]
    have hbif : Container.bind_if c (Factory.mk i T (FactoryBody.const v))
        = Container.bind c (Factory.mk i T (FactoryBody.const v)) := by
      simp [Container.bind_if, hcontains]
    rw [hbif]
    exact ⟨mapGet_remove_self T _,
      resolve_const_binding fuel _ T i v (mapGet_remove_self T _) (mapGet_insert_self T _ _)⟩

/-- Witness for C7: with a factory already bound, `bind_if` changes nothing;
with only a materialized entry present, `bind_if` installs the factory and
`resolve` then invokes it. -/
theorem C7_witness :
    Container.bind_if (Container.mk [(0, Factory.mk 1 0 (FactoryBody.const "old"))] [] [])
        (Factory.mk 2 0 (FactoryBody.const "new"))
      = (Container.mk [(0, Factory.mk 1 0 (FactoryBody.const "old"))] [] [], []) ∧
    Container.resolve 1 ((Container.bind_if (Container.mk [] [(0, ErasedValue.mk 0 "S")] [])
        (Factory.mk 2 0 (FactoryBody.const "new"))).1) 0
      = some (Except.ok "new", [2]) := by
  constructor
  · exact (C7_bind_if 1 (Container.mk [(0, Factory.mk 1 0 (FactoryBody.const "old"))] [] [])
      (Factory.mk 2 0 (FactoryBody.const "new"))).1 rfl
  · exact ((C7_bind_if 1 (Container.mk [] [(0, ErasedValue.mk 0 "S")] [])
      (Factory.mk 2 0 (FactoryBody.const "new"))).2.2 2 0 "new" (ErasedValue.mk 0 "S")
      rfl rfl).2

/-- Claim C8: `singleton_if` is a no-op (the container and hence every later
resolve result are unchanged) exactly when a materialized entry exists for
its key, and otherwise is `singleton`; `scoped_if` is a no-op exactly when
its key is already in `scoped_instances`, and otherwise is `scoped`. -/
theorem C8_conditional_noops (fuel : Nat) (c : Container) (f : Factory) :
    (mapContains f.retTy c.instances = true →
      Container.singleton_if fuel c f = some (c, [])) ∧
    (mapContains f.retTy c.instances = false →
      Container.singleton_if fuel c f = Container.singleton fuel c f) ∧
    (c.scoped_instances.contains f.retTy = true →
      Container.scoped_if fuel c f = some (c, [])) ∧
    (c.scoped_instances.contains f.retTy = false →
      Container.scoped_if fuel c f = Container.scoped fuel c f) := by
  refine ⟨?_, ?_, ?_, ?_⟩
  · intro h
    simp [Container.singleton_if, h]
  · intro h
    simp [Container.singleton_if, h]
  · intro h
    rw [Container.scoped_if, if_pos h]
  · intro h
    rw [Container.scoped_if, if_neg]
    rw [h]
    exact Bool.false_ne_true

/-- Witness for C8: `singleton_if` leaves a container with a cached entry
unchanged and acts as `singleton` on a fresh one; `scoped_if` leaves a
container with a scoped-marked key unchanged and acts as `scoped` on a
fresh one. -/
theorem C8_witness :
    Container.singleton_if 1 (Container.mk [] [(0, ErasedValue.mk 0 "old")] [])
        (Factory.mk 3 0 (FactoryBody.const "new"))
      = some (Container.mk [] [(0, ErasedValue.mk 0 "old")] [], []) ∧
    Container.scoped_if 1 (Container.mk [] [] [0]) (Factory.mk 3 0 (FactoryBody.const "new"))
      = some (Container.mk [] [] [0], []) ∧
    Container.singleton_if 1 Container.new (Factory.mk 3 0 (FactoryBody.const "new"))
      = Container.singleton 1 Container.new (Factory.mk 3 0 (FactoryBody.const "new")) ∧
    Container.scoped_if 1 Container.new (Factory.mk 3 0 (FactoryBody.const "new"))
      = Container.scoped 1 Container.new (Factory.mk 3 0 (FactoryBody.const "new")) := by
  refine ⟨?_, ?_, ?_, ?_⟩
  · exact (C8_conditional_noops 1 (Container.mk [] [(0, ErasedValue.mk 0 "old")] [])
      (Factory.mk 3 0 (FactoryBody.const "new"))).1 rfl
  · exact (C8_conditional_noops 1 (Container.mk [] [] [0])
      (Factory.mk 3 0 (FactoryBody.const "new"))).2.2.1 rfl
  · exact (C8_conditional_noops 1 Container.new
      (Factory.mk 3 0 (FactoryBody.const "new"))).2.1 rfl
  · exact (C8_conditional_noops 1 Container.new
      (Factory.mk 3 0 (FactoryBody.const "new"))).2.2.2 rfl

/-- Claim C9: `resolve` is read-only — in the state-passing reading of the
`&self` method the post-state equals the pre-state in all three tables,
whether the call succeeds or fails — and a freshly computed transient result
is never cached: resolving a transient binding twice re-invokes the factory
the second time as well. -/
theorem C9_resolve_readonly (fuel : Nat) (c : Container) (key : TypeId) :
    (∀ p, Container.resolveStep fuel c key = some p →
      p.2.bindings = c.bindings ∧ p.2.instances = c.instances ∧
      p.2.scoped_instances = c.scoped_instances) ∧
    (∀ i v, mapGet key c.instances = none →
      mapGet key c.bindings = some (Factory.mk i key (FactoryBody.const v)) →
      Container.resolveN fuel c key 2
        = [some (Except.ok v, [i]), some (Except.ok v, [i])]) := by
  constructor
  · intro p h
    rcases hx : Container.resolve fuel c key with _ | x
    · rw [Container.resolveStep, hx] at h
      cases h
    · rw [Container.resolveStep, hx] at h
      injection h with h2
      rw [← h2]
      exact ⟨rfl, rfl, rfl⟩
  · intro i v hi hb
    simp [Container.resolveN, resolve_const_binding fuel c key i v hi hb]

/-- Witness for C9 on a container with one transient binding: the post-state
of a resolve equals the pre-state, and two resolves both invoke the
factory. -/
theorem C9_witness :
    (Container.mk [(0, Factory.mk 2 0 (FactoryBody.const "t"))] [] []).bindings
      = [(0, Factory.mk 2 0 (FactoryBody.const "t"))] ∧
    Container.resolveN 1 (Container.mk [(0, Factory.mk 2 0 (FactoryBody.const "t"))] [] []) 0 2
      = [some (Except.ok "t", [2]), some (Except.ok "t", [2])] := by
  constructor
  · exact ((C9_resolve_readonly 1
      (Container.mk [(0, Factory.mk 2 0 (FactoryBody.const "t"))] [] []) 0).1
      ((Except.ok "t", [2]), Container.mk [(0, Factory.mk 2 0 (FactoryBody.const "t"))] [] [])
      rfl).1
  · exact (C9_resolve_readonly 1
      (Container.mk [(0, Factory.mk 2 0 (FactoryBody.const "t"))] [] []) 0).2 2 "t" rfl rfl

/-- The scoped list after a successful `scoped` call is the old list with the
factory's key appended. -/
theorem scoped_appends_key (fuel : Nat) (c : Container) (f : Factory) (c1 : Container)
    (tr : List Nat) (h : Container.scoped fuel c f = some (c1, tr)) :
    c1.scoped_instances = c.scoped_instances ++ [f.retTy] := by
  rcases hx : invokeBody fuel
      (Container.mk c.bindings c.instances (c.scoped_instances ++ [f.retTy])) f.body
    with _ | p
  · rw [Container.scoped, Container.singleton, hx] at h
    cases h
  · rw [Container.scoped, Container.singleton, hx] at h
    injection h with h2
    have h3 : _ = c1 := congrArg Prod.fst h2
    rw [← h3]

/-- Claim C10 counterexample: `scoped_instances` is a `Vec` and `scoped`
pushes its key unconditionally, so after two `scoped` registrations of the
same type the key occurs twice — the claim's at-most-once property fails. -/
theorem C10_counterexample :
    ((Container.scoped 1 Container.new (Factory.mk 0 0 (FactoryBody.const "a"))).bind
        (fun p => Container.scoped 1 p.1 (Factory.mk 0 0 (FactoryBody.const "a")))).map
        (fun p => (p.1.scoped_instances, p.1.scoped_instances.count 0))
      = some ([0, 0], 2) := by
  rfl

/-- Claim C10 amended: `scoped_instances` is a list, not a set — `scoped`
appends its key unconditionally, so repeated `scoped` calls for one type
duplicate the key; `scoped_if` appends only when the key is absent, so it
preserves at-most-one occurrence of every key. -/
theorem C10_scoped_list (fuel : Nat) (c : Container) (f : Factory) (k : TypeId) :
    (∀ c1 tr, Container.scoped fuel c f = some (c1, tr) →
      c1.scoped_instances = c.scoped_instances ++ [f.retTy]) ∧
    ((∀ j, c.scoped_instances.count j ≤ 1) →
      ∀ c1 tr, Container.scoped_if fuel c f = some (c1, tr) →
        c1.scoped_instances.count k ≤ 1) := by
  constructor
  · exact fun c1 tr h => scoped_appends_key fuel c f c1 tr h
  · intro hcount c1 tr h
    by_cases hmem : c.scoped_instances.contains f.retTy
    · rw [Container.scoped_if, if_pos hmem] at h
      injection h with h2
      have h3 : c = c1 := congrArg Prod.fst h2
      rw [← h3]
      exact hcount k
    · rw [Container.scoped_if, if_neg hmem] at h
      rw [scoped_appends_key fuel c f c1 tr h, List.count_append]
      have hnotmem : f.retTy ∉ c.scoped_instances := by
        simpa using hmem
      by_cases hk : k = f.retTy
      · subst hk
        rw [List.count_eq_zero.mpr hnotmem]
        simp [List.count_cons]
      · have h1 : List.count k [f.retTy] = 0 := by
          simp [List.count_cons, hk]
        rw [h1]
        simpa using hcount k

/-- Witness for the amended C10: `scoped_if` on a fresh container leaves each
key with at most one occurrence. -/
theorem C10_witness :
    (Container.mk [] [(0, ErasedValue.mk 0 "a")] [0]).scoped_instances.count 0 ≤ 1 :=
  (C10_scoped_list 1 Container.new (Factory.mk 0 0 (FactoryBody.const "a")) 0).2
    (fun j => by simp [Container.new])
    (Container.mk [] [(0, ErasedValue.mk 0 "a")] [0]) [0] (by rfl)

end Silhouette
